import Mathlib

/-!
Verification of the NanoGPT streaming provider (`src/llm/nanogpt.rs`).

The development shallowly embeds the provider's stream-decoding pipeline:
a JSON value model with a parser standing for `serde_json::from_str`,
the typed deserialization into `NanoGPTStreamEvent`, the SSE line decoder
`parse_sse_line`, the per-chunk decoder of `chat_stream` (UTF-8 lossy
decoding, line splitting, fragment concatenation), the empty-item filter,
and the synchronous status check.  Transport effects (the HTTP client,
the byte stream) are passed in explicitly as data.
-/

namespace NanoGPT

/-- JSON values, the model of `serde_json`'s value space.  Number lexemes are
kept verbatim: the event decoder never reads a number. -/
inductive Json where
  | null
  | bool (b : Bool)
  | num (lexeme : String)
  | str (s : String)
  | arr (items : List Json)
  | obj (fields : List (String × Json))

/-- JSON insignificant whitespace. -/
def isJsonWs (c : Char) : Bool :=
  c = ' ' || c = '\t' || c = '\n' || c = '\r'

/-- Drop leading JSON whitespace. -/
def skipWs : List Char → List Char
  | [] => []
  | c :: rest => if isJsonWs c then skipWs rest else c :: rest

/-- Value of a hex digit, if the character is one. -/
def hexVal? (c : Char) : Option Nat :=
  if '0' ≤ c ∧ c ≤ '9' then some (c.toNat - '0'.toNat)
  else if 'a' ≤ c ∧ c ≤ 'f' then some (c.toNat - 'a'.toNat + 10)
  else if 'A' ≤ c ∧ c ≤ 'F' then some (c.toNat - 'A'.toNat + 10)
  else none

/-- Combine four hex digits into a code unit. -/
def hex4? (h1 h2 h3 h4 : Char) : Option Nat := do
  let a ← hexVal? h1
  let b ← hexVal? h2
  let c ← hexVal? h3
  let d ← hexVal? h4
  pure (a * 4096 + b * 256 + c * 16 + d)

/-- Parse the body of a JSON string after the opening quote; returns the
decoded characters and the input remaining after the closing quote.
Escapes follow RFC 8259: a lone surrogate escape is rejected, a
surrogate pair is combined. -/
def parseStrRest : List Char → Option (List Char × List Char)
  | [] => none
  | '"' :: rest => some ([], rest)
  | '\\' :: 'u' :: h1 :: h2 :: h3 :: h4 :: rest => do
    let n ← hex4? h1 h2 h3 h4
    if 0xD800 ≤ n ∧ n ≤ 0xDBFF then
      match rest with
      | '\\' :: 'u' :: g1 :: g2 :: g3 :: g4 :: rest2 => do
        let m ← hex4? g1 g2 g3 g4
        if 0xDC00 ≤ m ∧ m ≤ 0xDFFF then
          let cp := 0x10000 + (n - 0xD800) * 0x400 + (m - 0xDC00)
          let (cs, r) ← parseStrRest rest2
          pure (Char.ofNat cp :: cs, r)
        else none
      | _ => none
    else if 0xDC00 ≤ n ∧ n ≤ 0xDFFF then none
    else do
      let (cs, r) ← parseStrRest rest
      pure (Char.ofNat n :: cs, r)
  | '\\' :: e :: rest => do
    let c : Char ←
      if e = '"' then some '"'
      else if e = '\\' then some '\\'
      else if e = '/' then some '/'
      else if e = 'b' then some '\x08'
      else if e = 'f' then some '\x0c'
      else if e = 'n' then some '\n'
      else if e = 'r' then some '\r'
      else if e = 't' then some '\t'
      else none
    let (cs, r) ← parseStrRest rest
    pure (c :: cs, r)
  | c :: rest =>
    if c.toNat < 0x20 then none
    else do
      let (cs, r) ← parseStrRest rest
      pure (c :: cs, r)

/-- Split off a maximal run of decimal digits. -/
def takeDigits : List Char → List Char × List Char
  | [] => ([], [])
  | c :: rest =>
    if c.isDigit then
      let (ds, r) := takeDigits rest
      (c :: ds, r)
    else ([], c :: rest)

/-- Parse a JSON number per the RFC 8259 grammar, returning its lexeme and
the remaining input. -/
def parseNumber (l : List Char) : Option (List Char × List Char) := do
  let (sign, l1) :=
    match l with
    | '-' :: r => (['-'], r)
    | _ => ([], l)
  let (intPart, l2) ←
    match l1 with
    | '0' :: r => some (['0'], r)
    | c :: _ =>
      if c.isDigit then
        let (ds, r) := takeDigits l1
        some (ds, r)
      else none
    | [] => none
  let (fracPart, l3) ←
    match l2 with
    | '.' :: r =>
      match takeDigits r with
      | ([], _) => none
      | (ds, r2) => some ('.' :: ds, r2)
    | _ => some ([], l2)
  let (expPart, l4) ←
    match l3 with
    | e :: r =>
      if e = 'e' ∨ e = 'E' then
        let (es, r1) :=
          match r with
          | '+' :: r2 => (['+'], r2)
          | '-' :: r2 => (['-'], r2)
          | _ => ([], r)
        match takeDigits r1 with
        | ([], _) => none
        | (ds, r2) => some (e :: es ++ ds, r2)
      else some ([], l3)
    | [] => some ([], l3)
  pure (sign ++ intPart ++ fracPart ++ expPart, l4)

mutual

/-- Parse one JSON value (leading whitespace allowed); fuel bounds the
recursion depth. -/
def parseValue : Nat → List Char → Option (Json × List Char)
  | 0, _ => none
  | Nat.succ fuel, l =>
    match skipWs l with
    | 'n' :: 'u' :: 'l' :: 'l' :: rest => some (Json.null, rest)
    | 't' :: 'r' :: 'u' :: 'e' :: rest => some (Json.bool true, rest)
    | 'f' :: 'a' :: 'l' :: 's' :: 'e' :: rest => some (Json.bool false, rest)
    | '"' :: rest => do
      let (cs, r) ← parseStrRest rest
      pure (Json.str (String.mk cs), r)
    | '[' :: rest =>
      (match skipWs rest with
       | ']' :: r => some (Json.arr [], r)
       | l1 => do
         let (items, r) ← parseArrItems fuel l1
         pure (Json.arr items, r))
    | '\x7b' :: rest =>
      (match skipWs rest with
       | '\x7d' :: r => some (Json.obj [], r)
       | l1 => do
         let (fields, r) ← parseObjItems fuel l1
         pure (Json.obj fields, r))
    | c :: rest =>
      if c = '-' ∨ c.isDigit then do
        let (lex, r) ← parseNumber (c :: rest)
        pure (Json.num (String.mk lex), r)
      else none
    | [] => none

/-- Parse the comma-separated items of a non-empty JSON array, consuming the
closing bracket. -/
def parseArrItems : Nat → List Char → Option (List Json × List Char)
  | 0, _ => none
  | Nat.succ fuel, l => do
    let (v, r) ← parseValue fuel l
    match skipWs r with
    | ',' :: r2 => do
      let (vs, r3) ← parseArrItems fuel r2
      pure (v :: vs, r3)
    | ']' :: r2 => pure ([v], r2)
    | _ => none

/-- Parse the comma-separated members of a non-empty JSON object, consuming
the closing brace. -/
def parseObjItems : Nat → List Char → Option (List (String × Json) × List Char)
  | 0, _ => none
  | Nat.succ fuel, l =>
    match skipWs l with
    | '"' :: r => do
      let (k, r1) ← parseStrRest r
      match skipWs r1 with
      | ':' :: r2 => do
        let (v, r3) ← parseValue fuel r2
        match skipWs r3 with
        | ',' :: r4 => do
          let (fs, r5) ← parseObjItems fuel r4
          pure ((String.mk k, v) :: fs, r5)
        | '\x7d' :: r4 => pure ([(String.mk k, v)], r4)
        | _ => none
      | _ => none
    | _ => none

end

/-- `serde_json::from_str` at the value level: parse one JSON value and
require that only whitespace remains (otherwise serde reports
"trailing characters"). -/
def parseJson (s : String) : Option Json :=
  match parseValue (s.data.length + 1) s.data with
  | some (v, rest) => if (skipWs rest).isEmpty then some v else none
  | none => none

/-- `struct Delta { content: Option<String> }` (nanogpt.rs, lines 44-47). -/
structure Delta where
  content : Option String
deriving DecidableEq, Repr

/-- `struct Choice { delta: Option<Delta> }` (nanogpt.rs, lines 38-42). -/
structure Choice where
  delta : Option Delta
deriving DecidableEq, Repr

/-- `struct NanoGPTStreamEvent { object: String, choices: Vec<Choice> }`
(nanogpt.rs, lines 32-36). -/
structure NanoGPTStreamEvent where
  object : String
  choices : List Choice
deriving DecidableEq, Repr

/-- serde's field access on a JSON object: absent field is `none`, a
duplicated field is a deserialization error (outer `none`). -/
def fieldOnce (fields : List (String × Json)) (k : String) : Option (Option Json) :=
  match fields.filter (fun f => f.1 = k) with
  | [] => some none
  | [f] => some (some f.2)
  | _ => none

/-- Derived `Deserialize` for `Delta`: an object whose optional `content`
field, when present, must be a string or null. -/
def decodeDelta (j : Json) : Option Delta :=
  match j with
  | Json.obj fields => do
    let c ← fieldOnce fields "content"
    match c with
    | none => some { content := none }
    | some Json.null => some { content := none }
    | some (Json.str s) => some { content := some s }
    | some _ => none
  | _ => none

/-- Derived `Deserialize` for `Choice`: an object whose optional `delta`
field, when present, must be null or decode as a `Delta`. -/
def decodeChoice (j : Json) : Option Choice :=
  match j with
  | Json.obj fields => do
    let d ← fieldOnce fields "delta"
    match d with
    | none => some { delta := none }
    | some Json.null => some { delta := none }
    | some jd => do
      let delta ← decodeDelta jd
      some { delta := some delta }
  | _ => none

/-- Derived `Deserialize` for `NanoGPTStreamEvent`: both `object` (a string)
and `choices` (an array of `Choice`) are required. -/
def decodeEvent (j : Json) : Option NanoGPTStreamEvent :=
  match j with
  | Json.obj fields => do
    let o ← fieldOnce fields "object"
    let c ← fieldOnce fields "choices"
    match o, c with
    | some (Json.str s), some (Json.arr items) => do
      let choices ← items.mapM decodeChoice
      some { object := s, choices := choices }
    | _, _ => none
  | _ => none

/-- `serde_json::from_str::<NanoGPTStreamEvent>` followed by `.ok()`. -/
def parseEvent (s : String) : Option NanoGPTStreamEvent :=
  (parseJson s).bind decodeEvent

/-- `str::is_empty`. -/
def strIsEmpty (s : String) : Bool := s.data.isEmpty

/-- Character-list prefix test (structured so that a literal pattern reduces
against a partially known input). -/
def charsIsPfx : List Char → List Char → Bool
  | [], _ => true
  | a :: as, l =>
    match l with
    | [] => false
    | b :: bs => a == b && charsIsPfx as bs

/-- `str::starts_with` for a literal pattern. -/
def strStartsWith (s p : String) : Bool := charsIsPfx p.data s.data

/-- Drop the first `n` characters (the residue of `strip_prefix`). -/
def strDrop (s : String) (n : Nat) : String := String.mk (s.data.drop n)

/-- `NanoGPTProvider::parse_sse_line` (nanogpt.rs, lines 79-98): empty and
comment lines yield nothing; a `data: ` line is deserialized, checked for
the `chat.completion.chunk` object kind, and the first choice's delta
content, when present, is returned. -/
def parse_sse_line (line : String) : Option String :=
  if strIsEmpty line || strStartsWith line ":" then none
  else if strStartsWith line "data: " then
    match parseEvent (strDrop line 6) with
    | none => none
    | some event =>
      if event.object ≠ "chat.completion.chunk" then none
      else
        match event.choices.head? with
        | none => none
        | some choice =>
          match choice.delta with
          | some delta =>
            match delta.content with
            | some content => some content
            | none => none
          | none => none
  else none

/-- The Unicode replacement character. -/
def replChar : Char := Char.ofNat 0xFFFD

/-- UTF-8 continuation byte. -/
def isCont (b : Nat) : Bool := 0x80 ≤ b ∧ b ≤ 0xBF

/-- Admissible second byte of a three-byte sequence (lead `0xE0`/`0xED`
restrict it to exclude overlong encodings and surrogates). -/
def cont3ok (lead b : Nat) : Bool :=
  if lead = 0xE0 then 0xA0 ≤ b ∧ b ≤ 0xBF
  else if lead = 0xED then 0x80 ≤ b ∧ b ≤ 0x9F
  else isCont b

/-- Admissible second byte of a four-byte sequence (lead `0xF0`/`0xF4`
restrict it to exclude overlong encodings and values above `0x10FFFF`). -/
def cont4ok (lead b : Nat) : Bool :=
  if lead = 0xF0 then 0x90 ≤ b ∧ b ≤ 0xBF
  else if lead = 0xF4 then 0x80 ≤ b ∧ b ≤ 0x8F
  else isCont b

/-- `String::from_utf8_lossy`: decode UTF-8, replacing each maximal invalid
subpart with the replacement character; a truncated sequence at the end of
the input becomes a single replacement character. -/
def utf8Lossy : List Nat → List Char
  | [] => []
  | b :: rest =>
    if b < 0x80 then Char.ofNat b :: utf8Lossy rest
    else if 0xC2 ≤ b ∧ b ≤ 0xDF then
      match rest with
      | b1 :: rest1 =>
        if isCont b1 then
          Char.ofNat ((b % 0x20) * 0x40 + b1 % 0x40) :: utf8Lossy rest1
        else replChar :: utf8Lossy (b1 :: rest1)
      | [] => [replChar]
    else if 0xE0 ≤ b ∧ b ≤ 0xEF then
      match rest with
      | b1 :: rest1 =>
        if cont3ok b b1 then
          match rest1 with
          | b2 :: rest2 =>
            if isCont b2 then
              Char.ofNat ((b % 0x10) * 0x1000 + (b1 % 0x40) * 0x40 + b2 % 0x40)
                :: utf8Lossy rest2
            else replChar :: utf8Lossy (b2 :: rest2)
          | [] => [replChar]
        else replChar :: utf8Lossy (b1 :: rest1)
      | [] => [replChar]
    else if 0xF0 ≤ b ∧ b ≤ 0xF4 then
      match rest with
      | b1 :: rest1 =>
        if cont4ok b b1 then
          match rest1 with
          | b2 :: rest2 =>
            if isCont b2 then
              match rest2 with
              | b3 :: rest3 =>
                if isCont b3 then
                  Char.ofNat ((b % 8) * 0x40000 + (b1 % 0x40) * 0x1000
                      + (b2 % 0x40) * 0x40 + b3 % 0x40)
                    :: utf8Lossy rest3
                else replChar :: utf8Lossy (b3 :: rest3)
              | [] => [replChar]
            else replChar :: utf8Lossy (b2 :: rest2)
          | [] => [replChar]
        else replChar :: utf8Lossy (b1 :: rest1)
      | [] => [replChar]
    else replChar :: utf8Lossy rest

/-- UTF-8 encoding of one scalar value (used to build concrete byte chunks
in examples). -/
def utf8Encode (c : Char) : List Nat :=
  let n := c.toNat
  if n < 0x80 then [n]
  else if n < 0x800 then [0xC0 + n / 0x40, 0x80 + n % 0x40]
  else if n < 0x10000 then
    [0xE0 + n / 0x1000, 0x80 + (n / 0x40) % 0x40, 0x80 + n % 0x40]
  else
    [0xF0 + n / 0x40000, 0x80 + (n / 0x1000) % 0x40,
     0x80 + (n / 0x40) % 0x40, 0x80 + n % 0x40]

/-- UTF-8 bytes of a string. -/
def strBytes (s : String) : List Nat := (s.data.map utf8Encode).flatten

/-- Split a character list at every newline (the shape of `split('\n')`). -/
def splitNl : List Char → List (List Char)
  | [] => [[]]
  | '\n' :: rest => [] :: splitNl rest
  | c :: rest =>
    match splitNl rest with
    | [] => [[c]]
    | l :: ls => (c :: l) :: ls

/-- `str::lines`: split on `'\n'`, with no empty line after a trailing
newline, and at most one `'\r'` stripped from the end of each line. -/
def rustLines (s : String) : List String :=
  let parts := splitNl s.data
  let parts := if parts.getLast? = some [] then parts.dropLast else parts
  parts.map (fun l =>
    match l.getLast? with
    | some '\r' => String.mk l.dropLast
    | _ => String.mk l)

/-- The line loop of `chat_stream` (nanogpt.rs, lines 143-149): starting
from an empty string, push every fragment `parse_sse_line` extracts. -/
def chunkContent (text : String) : String :=
  (rustLines text).foldl
    (fun content line =>
      match parse_sse_line line with
      | some t => content ++ t
      | none => content)
    ""

/-- Modelled from the spec: the `LLMError` taxonomy of the `llm` module
(declared outside this source file); §7 names the three variants. -/
inductive LLMError where
  | ConfigError (msg : String)
  | NetworkError (msg : String)
  | ApiError (msg : String)
deriving DecidableEq, Repr

/-- The closure mapped over `bytes_stream` (nanogpt.rs, lines 140-158):
an `Ok` chunk is lossily decoded, split into lines, and the extracted
fragments concatenated; a transport error becomes `NetworkError`. -/
def processChunk (result : Except String (List Nat)) : Except LLMError String :=
  match result with
  | Except.ok bytes =>
    let text := String.mk (utf8Lossy bytes)
    let content := chunkContent text
    if !strIsEmpty content then Except.ok content else Except.ok ""
  | Except.error e => Except.error (LLMError.NetworkError e)

/-- The filter closure (nanogpt.rs, lines 160-165): keep non-empty `Ok`
items and every `Err` item. -/
def keepItem (result : Except LLMError String) : Bool :=
  match result with
  | Except.ok content => !strIsEmpty content
  | Except.error _ => true

/-- The decode pipeline of `chat_stream` applied to the transport's chunk
sequence: map `processChunk`, then filter with `keepItem`. -/
def decodeStream (results : List (Except String (List Nat))) :
    List (Except LLMError String) :=
  (results.map processChunk).filter keepItem

/-- The observable transport state behind one `chat_stream` call: the HTTP
status class, the result of `response.text()` (`none` when the body is
unavailable), and the byte chunks of `bytes_stream`. -/
structure HttpResponse where
  statusSuccess : Bool
  bodyText : Option String
  chunks : List (Except String (List Nat))

/-- `chat_stream` after the request is sent (nanogpt.rs, lines 118-167),
with the transport outcome passed in as data: a send failure becomes
`NetworkError`; a non-success status returns `ApiError` carrying the body
text or the `"Unknown error"` placeholder; otherwise the filtered decode
pipeline is returned as the stream. -/
def chat_stream (response : Except String HttpResponse) :
    Except LLMError (List (Except LLMError String)) :=
  match response with
  | Except.error e => Except.error (LLMError.NetworkError e)
  | Except.ok resp =>
    if !resp.statusSuccess then
      Except.error (LLMError.ApiError
        ("NanoGPT API error: " ++ resp.bodyText.getD "Unknown error"))
    else
      Except.ok (decodeStream resp.chunks)

/-- Modelled from the spec: `LLMConfig` as used by `NanoGPTProvider::new`
and the provider test (declared outside this source file); §3 gives the
fields. -/
structure LLMConfig where
  provider : String
  model : String
  api_key : String
  base_url : Option String

/-- The `reqwest::Client`, opaque to this development. -/
inductive Client where
  | mk

/-- `struct NanoGPTProvider` (nanogpt.rs, lines 11-16). -/
structure NanoGPTProvider where
  client : Client
  model : String
  api_key : String

/-- `NanoGPTProvider::new` (nanogpt.rs, lines 50-60), with the result of
`Client::builder().build()` passed in as data: a build failure becomes
`ConfigError`, otherwise the provider keeps the configured model and key. -/
def NanoGPTProvider.new (clientBuild : Except String Client)
    (config : LLMConfig) : Except LLMError NanoGPTProvider :=
  match clientBuild with
  | Except.error e => Except.error (LLMError.ConfigError e)
  | Except.ok client =>
    Except.ok { client := client, model := config.model, api_key := config.api_key }

/-- `LLMProvider::name` for `NanoGPTProvider` (nanogpt.rs, lines 103-105). -/
def NanoGPTProvider.name (_ : NanoGPTProvider) : String := "nanogpt"

/-- Concatenation of a list of strings, in order. -/
def concatStrings : List String → String
  | [] => ""
  | s :: rest => s ++ concatStrings rest

/-- The spec's formulation of the per-chunk output (spec §4.2, step 3): the
concatenation, in line order, of exactly the fragments the line-decoding
rule extracts.  Compared against the source-side `chunkContent` fold. -/
def chunkFragments (text : String) : String :=
  concatStrings ((rustLines text).filterMap parse_sse_line)

/-- What one chunk contributes to the final stream: its processed item when
the filter keeps it, nothing otherwise.  Used to state that the pipeline
is a per-chunk (stateless) map. -/
def perChunkOutput (result : Except String (List Nat)) :
    Option (Except LLMError String) :=
  let item := processChunk result
  if keepItem item then some item else none

/- ------------------------------------------------------------------ -/
/- Theorems                                                           -/
/- ------------------------------------------------------------------ -/

/-- On a line `data: ` ++ `s`, the guards of `parse_sse_line` resolve
definitionally: the line is non-empty, is not a comment, and strips to `s`. -/
theorem parse_sse_line_append (s : String) :
    parse_sse_line ("data: " ++ s) =
      match parseEvent s with
      | none => none
      | some event =>
        if event.object ≠ "chat.completion.chunk" then none
        else
          match event.choices.head? with
          | none => none
          | some choice =>
            match choice.delta with
            | some delta =>
              match delta.content with
              | some content => some content
              | none => none
            | none => none := rfl

/-- `strIsEmpty` agrees with equality to the empty string. -/
theorem strIsEmpty_iff (s : String) : strIsEmpty s = true ↔ s = "" := by
  constructor
  · intro h
    apply String.ext
    have h' : s.data.isEmpty = true := h
    simpa [List.isEmpty_iff] using h'
  · intro h
    subst h
    rfl

/-- The fragment-pushing fold of the chunk loop computes the concatenation
of the extracted fragments appended to the accumulator. -/
theorem foldl_push_eq (ls : List String) (acc : String) :
    ls.foldl
        (fun content line =>
          match parse_sse_line line with
          | some t => content ++ t
          | none => content)
        acc
      = acc ++ concatStrings (ls.filterMap parse_sse_line) := by
  induction ls generalizing acc with
  | nil => simp [concatStrings, String.append_empty]
  | cons l ls ih =>
    rw [List.foldl_cons, List.filterMap_cons]
    cases h : parse_sse_line l with
    | none => simp only [h, ih]
    | some t => simp only [h, ih, concatStrings, String.append_assoc]

/-- The source's chunk loop agrees with the spec's line-order fragment
concatenation. -/
theorem chunkContent_eq_fragments (text : String) :
    chunkContent text = chunkFragments text := by
  unfold chunkContent chunkFragments
  rw [foldl_push_eq, String.empty_append]

/-- On an `Ok` chunk, `processChunk` returns exactly the chunk's
concatenated content (the empty-content branch returns the same value). -/
theorem processChunk_ok (bytes : List Nat) :
    processChunk (Except.ok bytes) =
      Except.ok (chunkContent (String.mk (utf8Lossy bytes))) := by
  unfold processChunk
  dsimp only
  split
  · rfl
  · next h =>
    have h' : strIsEmpty (chunkContent (String.mk (utf8Lossy bytes))) = true := by
      revert h
      cases strIsEmpty (chunkContent (String.mk (utf8Lossy bytes))) <;> simp
    rw [(strIsEmpty_iff _).mp h']

/-- The decode pipeline is a per-chunk map: each chunk contributes its own
`perChunkOutput`, independently of every other chunk. -/
theorem decodeStream_filterMap (results : List (Except String (List Nat))) :
    decodeStream results = results.filterMap perChunkOutput := by
  induction results with
  | nil => rfl
  | cons r rs ih =>
    show ((r :: rs).map processChunk).filter keepItem = _
    rw [List.map_cons, List.filter_cons, List.filterMap_cons]
    cases h : keepItem (processChunk r) with
    | true =>
      simp only [perChunkOutput, h, if_true]
      exact congrArg _ ih
    | false =>
      simp only [perChunkOutput, h, if_false]
      exact ih

/-- Claim C1: a `data: ` line whose payload deserializes to a
`chat.completion.chunk` event whose first choice carries a delta with a
present content fragment yields exactly that fragment; in particular the
example line yields `"hi"`. -/
theorem c1_content_delta_line_yields_fragment :
    (∀ (s : String) (event : NanoGPTStreamEvent) (choice : Choice)
        (delta : Delta) (content : String),
        parseEvent s = some event →
        event.object = "chat.completion.chunk" →
        event.choices.head? = some choice →
        choice.delta = some delta →
        delta.content = some content →
        parse_sse_line ("data: " ++ s) = some content) ∧
    parse_sse_line
        "data: \x7b\"object\":\"chat.completion.chunk\",\"choices\":[\x7b\"delta\":\x7b\"content\":\"hi\"\x7d\x7d]\x7d"
      = some "hi" := by
  constructor
  · intro s event choice delta content hparse hobj hchoice hdelta hcontent
    rw [parse_sse_line_append, hparse]
    simp [hobj, hchoice, hdelta, hcontent]
  · rfl

/-- Witness for C1 at the example payload. -/
theorem c1_witness :
    parse_sse_line
        ("data: "
          ++ "\x7b\"object\":\"chat.completion.chunk\",\"choices\":[\x7b\"delta\":\x7b\"content\":\"hi\"\x7d\x7d]\x7d")
      = some "hi" :=
  c1_content_delta_line_yields_fragment.1
    "\x7b\"object\":\"chat.completion.chunk\",\"choices\":[\x7b\"delta\":\x7b\"content\":\"hi\"\x7d\x7d]\x7d"
    ⟨"chat.completion.chunk", [⟨some ⟨some "hi"⟩⟩]⟩
    ⟨some ⟨some "hi"⟩⟩ ⟨some "hi"⟩ "hi" rfl rfl rfl rfl rfl

/-- Claim C5: a `data: ` line whose remainder fails to deserialize yields
nothing, and no error is propagated; in particular `data: not-json` yields
nothing. -/
theorem c5_malformed_data_line_silently_dropped :
    (∀ s : String, parseEvent s = none → parse_sse_line ("data: " ++ s) = none) ∧
    parse_sse_line "data: not-json" = none := by
  constructor
  · intro s h
    rw [parse_sse_line_append, h]
  · rfl

/-- Witness for C5 at the example payload. -/
theorem c5_witness : parse_sse_line ("data: " ++ "not-json") = none :=
  c5_malformed_data_line_silently_dropped.1 "not-json" rfl

/-- Claim C6: an empty line, a comment line (leading `:`), or any line not
carrying the `data: ` prefix yields nothing. -/
theorem c6_non_data_lines_yield_nothing :
    ∀ line : String,
      strIsEmpty line = true ∨ strStartsWith line ":" = true ∨
          strStartsWith line "data: " = false →
      parse_sse_line line = none := by
  intro line h
  unfold parse_sse_line
  rcases h with h | h | h
  · simp [h]
  · simp [h]
  · cases h1 : (strIsEmpty line || strStartsWith line ":") <;> simp [h1, h]

/-- Witness for C6 on an empty line, a keep-alive comment, and an
event-type line. -/
theorem c6_witness :
    parse_sse_line "" = none ∧ parse_sse_line ": keep-alive" = none ∧
      parse_sse_line "event: done" = none :=
  ⟨c6_non_data_lines_yield_nothing "" (Or.inl rfl),
   c6_non_data_lines_yield_nothing ": keep-alive" (Or.inr (Or.inl rfl)),
   c6_non_data_lines_yield_nothing "event: done" (Or.inr (Or.inr rfl))⟩

/-- Claim C7: a `data: ` line that deserializes but whose `object` kind is
not `chat.completion.chunk` yields nothing; in particular the example line
with kind `other` yields nothing. -/
theorem c7_wrong_object_kind_yields_nothing :
    (∀ (s : String) (event : NanoGPTStreamEvent),
        parseEvent s = some event →
        event.object ≠ "chat.completion.chunk" →
        parse_sse_line ("data: " ++ s) = none) ∧
    parse_sse_line
        "data: \x7b\"object\":\"other\",\"choices\":[\x7b\"delta\":\x7b\"content\":\"x\"\x7d\x7d]\x7d"
      = none := by
  constructor
  · intro s event hparse hobj
    rw [parse_sse_line_append, hparse]
    simp [hobj]
  · rfl

/-- Witness for C7 at the example payload. -/
theorem c7_witness :
    parse_sse_line
        ("data: " ++ "\x7b\"object\":\"other\",\"choices\":[\x7b\"delta\":\x7b\"content\":\"x\"\x7d\x7d]\x7d")
      = none :=
  c7_wrong_object_kind_yields_nothing.1
    "\x7b\"object\":\"other\",\"choices\":[\x7b\"delta\":\x7b\"content\":\"x\"\x7d\x7d]\x7d"
    ⟨"other", [⟨some ⟨some "x"⟩⟩]⟩ rfl (by decide)

/-- Claim C10: the line rule is a total function, and the first choice is
accessed through `Option`-returning indexing: a well-formed content-delta
event with no choices, or whose first choice lacks a delta or a content
fragment, yields nothing rather than failing. -/
theorem c10_safe_first_choice_access :
    (∀ line : String,
        (parse_sse_line line).isSome = true ∨ parse_sse_line line = none) ∧
    (∀ (s : String) (event : NanoGPTStreamEvent),
        parseEvent s = some event →
        event.object = "chat.completion.chunk" →
        (event.choices = [] → parse_sse_line ("data: " ++ s) = none) ∧
        (∀ choice, event.choices.head? = some choice → choice.delta = none →
            parse_sse_line ("data: " ++ s) = none) ∧
        (∀ choice delta, event.choices.head? = some choice →
            choice.delta = some delta → delta.content = none →
            parse_sse_line ("data: " ++ s) = none)) := by
  constructor
  · intro line
    cases parse_sse_line line with
    | none => exact Or.inr rfl
    | some c => exact Or.inl rfl
  · intro s event hparse hobj
    refine ⟨?_, ?_, ?_⟩
    · intro hnil
      rw [parse_sse_line_append, hparse]
      simp [hobj, hnil]
    · intro choice hchoice hdelta
      rw [parse_sse_line_append, hparse]
      simp [hobj, hchoice, hdelta]
    · intro choice delta hchoice hdelta hcontent
      rw [parse_sse_line_append, hparse]
      simp [hobj, hchoice, hdelta, hcontent]

/-- Witness for C10 on empty-choices, missing-delta and missing-content
events. -/
theorem c10_witness :
    parse_sse_line ("data: " ++ "\x7b\"object\":\"chat.completion.chunk\",\"choices\":[]\x7d") = none ∧
    parse_sse_line ("data: " ++ "\x7b\"object\":\"chat.completion.chunk\",\"choices\":[\x7b\x7d]\x7d") = none ∧
    parse_sse_line ("data: " ++ "\x7b\"object\":\"chat.completion.chunk\",\"choices\":[\x7b\"delta\":\x7b\x7d\x7d]\x7d") = none :=
  ⟨((c10_safe_first_choice_access.2
      "\x7b\"object\":\"chat.completion.chunk\",\"choices\":[]\x7d"
      ⟨"chat.completion.chunk", []⟩ rfl rfl).1 rfl),
   ((c10_safe_first_choice_access.2
      "\x7b\"object\":\"chat.completion.chunk\",\"choices\":[\x7b\x7d]\x7d"
      ⟨"chat.completion.chunk", [⟨none⟩]⟩ rfl rfl).2.1 ⟨none⟩ rfl rfl),
   ((c10_safe_first_choice_access.2
      "\x7b\"object\":\"chat.completion.chunk\",\"choices\":[\x7b\"delta\":\x7b\x7d\x7d]\x7d"
      ⟨"chat.completion.chunk", [⟨some ⟨none⟩⟩]⟩ rfl rfl).2.2 ⟨some ⟨none⟩⟩ ⟨none⟩ rfl rfl rfl)⟩

/-- Claim C2: every `Ok` byte chunk is decoded as text with lossy
replacement (never failing), split into lines, and the fragments the line
rule extracts are concatenated in line order into the chunk's single
output; in particular a chunk with back-to-back `He` and `llo`
content-delta lines outputs `Hello`. -/
theorem c2_chunk_decoder_concatenates_fragments :
    (∀ bytes : List Nat,
        processChunk (Except.ok bytes) =
          Except.ok (chunkFragments (String.mk (utf8Lossy bytes)))) ∧
    processChunk (Except.ok (strBytes
        ("data: \x7b\"object\":\"chat.completion.chunk\",\"choices\":[\x7b\"delta\":\x7b\"content\":\"He\"\x7d\x7d]\x7d\n"
          ++ "data: \x7b\"object\":\"chat.completion.chunk\",\"choices\":[\x7b\"delta\":\x7b\"content\":\"llo\"\x7d\x7d]\x7d\n\n")))
      = Except.ok "Hello" := by
  constructor
  · intro bytes
    rw [processChunk_ok, chunkContent_eq_fragments]
  · rfl

/-- Claim C3: the filtered stream never contains an empty `Ok` item, and
every `Err` item of the mapped chunk sequence passes through the filter to
the caller. -/
theorem c3_filter_drops_empty_keeps_errors :
    (∀ (results : List (Except String (List Nat))) (s : String),
        Except.ok s ∈ decodeStream results → s ≠ "") ∧
    (∀ (results : List (Except String (List Nat))) (e : LLMError),
        Except.error e ∈ results.map processChunk →
        Except.error e ∈ decodeStream results) := by
  constructor
  · intro rs s hmem hs
    subst hs
    have hk : keepItem (Except.ok "") = true := List.of_mem_filter hmem
    simp [keepItem, strIsEmpty] at hk
  · intro rs e hmem
    exact List.mem_filter.mpr ⟨hmem, rfl⟩

/-- Witness for C3: a kept non-empty item and a passed-through error. -/
theorem c3_witness :
    "hi" ≠ "" ∧
    Except.error (LLMError.NetworkError "connection reset")
      ∈ decodeStream [Except.error "connection reset"] := by
  constructor
  · refine c3_filter_drops_empty_keeps_errors.1
      [Except.ok (strBytes
        "data: \x7b\"object\":\"chat.completion.chunk\",\"choices\":[\x7b\"delta\":\x7b\"content\":\"hi\"\x7d\x7d]\x7d")]
      "hi" ?_
    have h : decodeStream [Except.ok (strBytes
        "data: \x7b\"object\":\"chat.completion.chunk\",\"choices\":[\x7b\"delta\":\x7b\"content\":\"hi\"\x7d\x7d]\x7d")]
        = [Except.ok "hi"] := rfl
    rw [h]
    exact List.mem_singleton.mpr rfl
  · refine c3_filter_drops_empty_keeps_errors.2 [Except.error "connection reset"]
      (LLMError.NetworkError "connection reset") ?_
    have h : [(Except.error "connection reset" :
          Except String (List Nat))].map processChunk
        = [Except.error (LLMError.NetworkError "connection reset")] := rfl
    rw [h]
    exact List.mem_singleton.mpr rfl

/-- Claim C4: a non-success HTTP status makes `chat_stream` return an
`ApiError` synchronously — never a stream — carrying the response body when
retrievable and the fixed `Unknown error` placeholder otherwise. -/
theorem c4_non_success_status_is_api_error :
    ∀ resp : HttpResponse, resp.statusSuccess = false →
      chat_stream (Except.ok resp) =
        Except.error (LLMError.ApiError
          ("NanoGPT API error: " ++ resp.bodyText.getD "Unknown error")) ∧
      (∀ body, resp.bodyText = some body →
        chat_stream (Except.ok resp) =
          Except.error (LLMError.ApiError ("NanoGPT API error: " ++ body))) ∧
      (resp.bodyText = none →
        chat_stream (Except.ok resp) =
          Except.error (LLMError.ApiError "NanoGPT API error: Unknown error")) ∧
      (∀ stream, chat_stream (Except.ok resp) ≠ Except.ok stream) := by
  intro resp h
  have hmain : chat_stream (Except.ok resp) =
      Except.error (LLMError.ApiError
        ("NanoGPT API error: " ++ resp.bodyText.getD "Unknown error")) := by
    unfold chat_stream
    dsimp only
    rw [h]
    rfl
  refine ⟨hmain, ?_, ?_, ?_⟩
  · intro body hbody
    rw [hmain, hbody]
    rfl
  · intro hbody
    rw [hmain, hbody]
    rfl
  · intro stream hcontra
    rw [hmain] at hcontra
    exact Except.noConfusion hcontra

/-- Witness for C4 with a retrievable body and with an unavailable body. -/
theorem c4_witness :
    chat_stream (Except.ok ⟨false, some "bad key", []⟩) =
      Except.error (LLMError.ApiError "NanoGPT API error: bad key") ∧
    chat_stream (Except.ok ⟨false, none, []⟩) =
      Except.error (LLMError.ApiError "NanoGPT API error: Unknown error") :=
  ⟨(c4_non_success_status_is_api_error ⟨false, some "bad key", []⟩ rfl).2.1
      "bad key" rfl,
   (c4_non_success_status_is_api_error ⟨false, none, []⟩ rfl).2.2.1 rfl⟩

/-- Claim C8: decoding is a stateless, order-preserving, deterministic
per-chunk map: the stream is the `filterMap` of a per-chunk function, it
distributes over concatenation of chunk sequences, and two runs on equal
chunk sequences produce equal outputs. -/
theorem c8_decoding_stateless_and_deterministic :
    (∀ results, decodeStream results = results.filterMap perChunkOutput) ∧
    (∀ xs ys, decodeStream (xs ++ ys) = decodeStream xs ++ decodeStream ys) ∧
    (∀ xs ys, xs = ys → decodeStream xs = decodeStream ys) := by
  refine ⟨decodeStream_filterMap, ?_, ?_⟩
  · intro xs ys
    rw [decodeStream_filterMap, decodeStream_filterMap, decodeStream_filterMap,
      List.filterMap_append]
  · intro xs ys h
    rw [h]

/-- Witness for C8: two runs on the same concrete chunk sequence agree. -/
theorem c8_witness :
    decodeStream [Except.error "reset", Except.ok (strBytes ": keep-alive\n")]
      = decodeStream [Except.error "reset", Except.ok (strBytes ": keep-alive\n")] :=
  c8_decoding_stateless_and_deterministic.2.2 _ _ rfl

/-- Claim C9: with a successfully built HTTP client, construction succeeds
for every configuration; the provider's `model()` is exactly the configured
model, and `name()` is the constant, never-empty identifier `nanogpt`,
which equals the configured provider tag whenever that tag names this
provider. -/
theorem c9_construction_and_identity :
    (∀ (config : LLMConfig) (client : Client),
        ∃ provider,
          NanoGPTProvider.new (Except.ok client) config = Except.ok provider) ∧
    (∀ (config : LLMConfig) (client : Client) (provider : NanoGPTProvider),
        NanoGPTProvider.new (Except.ok client) config = Except.ok provider →
        provider.model = config.model ∧
        provider.name = "nanogpt" ∧
        provider.name ≠ "" ∧
        (config.provider = "nanogpt" → provider.name = config.provider)) ∧
    (∀ p q : NanoGPTProvider, p.name = q.name) := by
  refine ⟨?_, ?_, ?_⟩
  · intro config client
    exact ⟨_, rfl⟩
  · intro config client provider h
    have h' : Except.ok
        (⟨client, config.model, config.api_key⟩ : NanoGPTProvider)
        = Except.ok provider := h
    obtain rfl := (Except.ok.inj h').symm
    refine ⟨rfl, rfl, ?_, ?_⟩
    · show ("nanogpt" : String) ≠ ""
      decide
    · intro hp
      rw [hp]
      rfl
  · intro p q
    rfl

/-- Witness for C9 at the test configuration. -/
theorem c9_witness :
    (NanoGPTProvider.mk Client.mk "gpt-4o" "test-key").model = "gpt-4o" ∧
    (NanoGPTProvider.mk Client.mk "gpt-4o" "test-key").name = "nanogpt" ∧
    (NanoGPTProvider.mk Client.mk "gpt-4o" "test-key").name
      = (⟨"nanogpt", "gpt-4o", "test-key", none⟩ : LLMConfig).provider :=
  have h := c9_construction_and_identity.2.1
    ⟨"nanogpt", "gpt-4o", "test-key", none⟩ Client.mk
    (NanoGPTProvider.mk Client.mk "gpt-4o" "test-key") rfl
  ⟨h.1, h.2.1, h.2.2.2 rfl⟩

end NanoGPT
